import Mathlib

/-!
# Verification of the Justitia incentive and scheduling core

Shallow embedding of the Go sources of the Justitia sharded-blockchain
incentive system, together with theorems settling the specification claims.

Conventions used throughout:
* `*big.Int` money values are modelled as `Int` (arbitrary precision, exact);
  a `nil` pointer at an API boundary is modelled as `Option Int` exactly where
  the source performs a `nil` check that is observable.
* Go `big.Int.Div` is Euclidean division (floor for a positive divisor);
  it is modelled by `Int.ediv`.
* Go `float64` control-loop internals (the Lagrangian shadow price) are
  modelled by exact rationals `ℚ`; all the properties proved about them are
  order-theoretic (clamping) and survive this idealization.
* Go maps are modelled by association lists or functions to `Option`;
  mutation is modelled by explicit state passing.
-/

/-! ## incentive/justitia/justitia.go — core pure functions -/

/-- Model of `justitia.Case` (a Go `int` enum): `Case1 = 1`. -/
def Case1 : Int := 1

/-- Model of `justitia.Case`: `Case2 = 2`. -/
def Case2 : Int := 2

/-- Model of `justitia.Case`: `Case3 = 3`. -/
def Case3 : Int := 3

/-- Model of `justitia.Split2` (the final `*big.Int` version, justitia.go).
The Go source first replaces `nil` arguments by `0`; callers in this
development always pass values, so the arguments are plain `Int`.
`big.Int.Div` by `2` is floor division, i.e. `Int.ediv`. -/
def Split2 (fAB R EA EB : Int) : Int × Int :=
  let total := fAB + R
  let diff := EA - EB
  let uACalc := Int.ediv (total + diff) 2
  let uBCalc := Int.ediv (total - diff) 2
  if uACalc < 0 then
    (0, total)
  else if uBCalc < 0 then
    (total, 0)
  else
    (uACalc, uBCalc)

/-- Model of `justitia.Classify` (the final `*big.Int` version, justitia.go).
`nil` arguments are replaced by `0` in the source; values are passed here. -/
def Classify (uA EA EB : Int) : Int :=
  if EA ≤ uA then
    Case1
  else if EA ≤ EB then
    if uA ≤ 0 then Case2 else Case3
  else
    if uA ≤ EA - EB then Case2 else Case3

/-- Model of `justitia.SubsidyMode` (final version with 7 modes). -/
inductive SubsidyMode where
  | SubsidyNone
  | SubsidyDestAvg
  | SubsidySumAvg
  | SubsidyCustom
  | SubsidyExtremeFixed
  | SubsidyPID
  | SubsidyLagrangian
deriving DecidableEq, Repr

/-- Model of `justitia.DynamicMetrics`.  The float wait times are modelled
as exact rationals; `CurrentInflation` is a possibly-`nil` `*big.Int`. -/
structure DynamicMetrics where
  QueueLengthA : Int
  QueueLengthB : Int
  AvgWaitTimeA : ℚ
  AvgWaitTimeB : ℚ
  CurrentInflation : Option Int
deriving DecidableEq, Repr

/-- Model of the stateless `justitia.RAB` (final `*big.Int` version).
`EA`,`EB` are possibly-`nil`; `customF` may return `nil` (modelled by
`Option`).  The `metrics` argument is never read by the source and is kept
for signature fidelity.  PID and Lagrangian degrade to DestAvg here. -/
def RAB (mode : SubsidyMode) (EA EB : Option Int) (_metrics : Option DynamicMetrics)
    (customF : Option (Option Int → Option Int → Option Int)) : Int :=
  match mode with
  | .SubsidyNone => 0
  | .SubsidyDestAvg =>
    match EB with
    | none => 0
    | some eb => eb
  | .SubsidySumAvg =>
    match EA, EB with
    | none, none => 0
    | none, some eb => eb
    | some ea, none => ea
    | some ea, some eb => ea + eb
  | .SubsidyCustom =>
    match customF with
    | some f =>
      match f EA EB with
      | none => 0
      | some r => r
    | none =>
      match EB with
      | none => 0
      | some eb => eb
  | .SubsidyExtremeFixed => 1000000000000000000
  | .SubsidyPID =>
    match EB with
    | none => 0
    | some eb => eb
  | .SubsidyLagrangian =>
    match EB with
    | none => 0
    | some eb => eb

/-- C1: Split conservation.  The claim asserts `u_A + u_B = f + R` for all
non-negative inputs, which matches the documented invariant in the source
(`// Invariant: uA + uB = fAB + R`), but the code loses one unit to floor
division whenever `f + R + E_A − E_B` is odd: `Split2 1 0 0 0 = (0, 0)`
whose components sum to `0`, not `1 + 0 = 1`. -/
theorem Split2_conservation_fails_at_1_0_0_0 :
    Split2 1 0 0 0 = (0, 0) ∧ ((0 : Int) + 0 ≠ 1 + 0) := by
  decide

/-- C4 counterexample: the claim states `Classify` returns Case3 iff
`E_A − E_B < u_A < E_A`.  At `(u_A, E_A, E_B) = (0, 100, 500)` the right-hand
side holds (`−400 < 0 < 100`) but the code returns Case2. -/
theorem Classify_claim_false_at_0_100_500 :
    ¬ (Classify 0 100 500 = Case3 ↔ ((100 : Int) - 500 < 0 ∧ (0 : Int) < 100)) := by
  decide

/-- C4 (amended): for non-negative inputs, `Classify` returns Case1 iff
`u_A ≥ E_A`; Case2 iff `u_A < E_A` and `u_A ≤ max (E_A − E_B) 0`; Case3 iff
`max (E_A − E_B) 0 < u_A < E_A`.  The effective Case2 threshold is
`max (E_A − E_B) 0`, not `E_A − E_B`: when `E_B ≥ E_A` the code compares
`u_A ≤ 0` (underflow protection), which is weaker than `u_A ≤ E_A − E_B`. -/
theorem Classify_cases (uA EA EB : Int)
    (_huA : 0 ≤ uA) (_hEA : 0 ≤ EA) (_hEB : 0 ≤ EB) :
    (Classify uA EA EB = Case1 ↔ EA ≤ uA)
    ∧ (Classify uA EA EB = Case2 ↔ (uA < EA ∧ uA ≤ max (EA - EB) 0))
    ∧ (Classify uA EA EB = Case3 ↔ (max (EA - EB) 0 < uA ∧ uA < EA)) := by
  refine ⟨?_, ?_, ?_⟩ <;>
    (simp only [Classify, Case1, Case2, Case3]; split_ifs <;> (constructor <;> intro h <;> omega))

/-- Witness for `Classify_cases` at `(u_A, E_A, E_B) = (50, 100, 500)`
(the S2 scenario: Case3). -/
theorem Classify_cases_witness :
    Classify 50 100 500 = Case3 ↔ (max ((100 : Int) - 500) 0 < 50 ∧ (50 : Int) < 100) :=
  (Classify_cases 50 100 500 (by decide) (by decide) (by decide)).2.2

/-! ## incentive/justitia/justitia.go — Lagrangian shadow price (Mechanism) -/

/-- Model of `justitia.LagrangianParams`.  Go `float64` parameters are
modelled as exact rationals. -/
structure LagrangianParams where
  Alpha : ℚ
  WindowSize : ℚ
  MinLambda : ℚ
  MaxLambda : ℚ
  CongestionExp : ℚ
deriving DecidableEq, Repr

/-- Model of `justitia.LagrangianState` (the fields read or written by
`UpdateShadowPrice`; the two timestamps are write-only there and omitted). -/
structure LagrangianState where
  Lambda : ℚ
  TotalSubsidy : Int
deriving DecidableEq, Repr

/-- Model of `Mechanism.UpdateShadowPrice`.  `nil` arguments cause an early
return with no state change.  The float conversion of the `big.Int`
violation is modelled exactly in `ℚ`; the sequential clamping
(`if newLambda < min … ; if newLambda > max …`) is kept as in the source. -/
def UpdateShadowPrice (params : LagrangianParams) (state : LagrangianState)
    (totalSubsidyIssued inflationLimit : Option Int) : LagrangianState :=
  match totalSubsidyIssued, inflationLimit with
  | some total, some limit =>
    let violation : Int := total - limit
    let normalizedViolation : ℚ := if (0 : ℚ) < (limit : ℚ) then (violation : ℚ) / (limit : ℚ) else 0
    let newLambda := state.Lambda + params.Alpha * normalizedViolation
    let l1 := if newLambda < params.MinLambda then params.MinLambda else newLambda
    let l2 := if params.MaxLambda < l1 then params.MaxLambda else l1
    { Lambda := l2, TotalSubsidy := total }
  | _, _ => state

/-- Folding a sequence of `UpdateShadowPrice` calls (one per committed
block) over the Lagrangian state. -/
def runShadowPriceUpdates (params : LagrangianParams) (state : LagrangianState)
    (calls : List (Int × Int)) : LagrangianState :=
  calls.foldl (fun st c => UpdateShadowPrice params st (some c.1) (some c.2)) state

/-- After one `UpdateShadowPrice` call with values, λ is clamped into
`[MinLambda, MaxLambda]` (provided the interval is non-empty). -/
theorem updateShadowPrice_lambda_mem (params : LagrangianParams)
    (state : LagrangianState) (t l : Int) (hml : params.MinLambda ≤ params.MaxLambda) :
    params.MinLambda ≤ (UpdateShadowPrice params state (some t) (some l)).Lambda
    ∧ (UpdateShadowPrice params state (some t) (some l)).Lambda ≤ params.MaxLambda := by
  simp only [UpdateShadowPrice]
  split_ifs <;> constructor <;> simp_all

theorem runShadowPriceUpdates_cons (params : LagrangianParams)
    (state : LagrangianState) (c : Int × Int) (calls : List (Int × Int)) :
    runShadowPriceUpdates params state (c :: calls)
      = runShadowPriceUpdates params (UpdateShadowPrice params state (some c.1) (some c.2)) calls := by
  simp [runShadowPriceUpdates]

/-- If λ already lies in the clamping interval, any further sequence of
calls keeps it there. -/
theorem runShadowPriceUpdates_lambda_mem (params : LagrangianParams)
    (hml : params.MinLambda ≤ params.MaxLambda) :
    ∀ (calls : List (Int × Int)) (state : LagrangianState),
      params.MinLambda ≤ state.Lambda → state.Lambda ≤ params.MaxLambda →
      params.MinLambda ≤ (runShadowPriceUpdates params state calls).Lambda
      ∧ (runShadowPriceUpdates params state calls).Lambda ≤ params.MaxLambda := by
  intro calls
  induction calls with
  | nil => intro state h1 h2; exact ⟨h1, h2⟩
  | cons c rest ih =>
    intro state _ _
    rw [runShadowPriceUpdates_cons]
    have hc := updateShadowPrice_lambda_mem params state c.1 c.2 hml
    exact ih _ hc.1 hc.2

/-- C7: Lagrangian shadow-price bounds.  (a) A single call sets
λ to `clamp (λ + α·(total − limit)/limit) [min, max]` (normalized violation
`0` when the limit is not positive) and stores the passed total;
(b) after any non-empty sequence of calls, λ ∈ `[λ_min, λ_max]`
(the interval being non-empty). -/
theorem updateShadowPrice_spec (params : LagrangianParams)
    (state : LagrangianState) (hml : params.MinLambda ≤ params.MaxLambda) :
    (∀ t l : Int,
      UpdateShadowPrice params state (some t) (some l)
        = { Lambda :=
              min (max (state.Lambda
                    + params.Alpha * (if (0 : ℚ) < (l : ℚ) then ((t - l : Int) : ℚ) / (l : ℚ) else 0))
                  params.MinLambda)
                params.MaxLambda,
            TotalSubsidy := t })
    ∧ (∀ (c : Int × Int) (calls : List (Int × Int)),
        params.MinLambda ≤ (runShadowPriceUpdates params state (c :: calls)).Lambda
        ∧ (runShadowPriceUpdates params state (c :: calls)).Lambda ≤ params.MaxLambda) := by
  constructor
  · intro t l
    have hclamp : ∀ x : ℚ,
        (if params.MaxLambda < (if x < params.MinLambda then params.MinLambda else x)
          then params.MaxLambda
          else (if x < params.MinLambda then params.MinLambda else x))
        = min (max x params.MinLambda) params.MaxLambda := by
      intro x
      rcases lt_or_le x params.MinLambda with h1 | h1 <;>
        rcases lt_or_le params.MaxLambda x with h2 | h2 <;>
        simp [min_def, max_def] <;> split_ifs <;> linarith
    simp only [UpdateShadowPrice]
    congr 1
    exact hclamp _
  · intro c calls
    rw [runShadowPriceUpdates_cons]
    have hc := updateShadowPrice_lambda_mem params state c.1 c.2 hml
    exact runShadowPriceUpdates_lambda_mem params hml calls _ hc.1 hc.2

/-- Witness for `updateShadowPrice_spec`: the S6 scenario,
`α = 1/100`, `λ_min = 1`, `λ_max = 10`, limit `5·10^18`, one block issuing
`6·10^18`: the normalized violation is `1/5`, the raw update is `1 + 1/500`,
and the clamped λ stays `501/500` ∈ [1, 10]. -/
theorem updateShadowPrice_spec_witness :
    (UpdateShadowPrice ⟨1/100, 0, 1, 10, 2⟩ ⟨1, 0⟩
        (some 6000000000000000000) (some 5000000000000000000)
      = { Lambda := min (max ((1 : ℚ)
            + (1/100 : ℚ) * (if (0 : ℚ) < ((5000000000000000000 : Int) : ℚ)
                then (((6000000000000000000 - 5000000000000000000 : Int)) : ℚ) / ((5000000000000000000 : Int) : ℚ)
                else 0)) 1) 10,
          TotalSubsidy := 6000000000000000000 })
    ∧ ((1 : ℚ) ≤ (runShadowPriceUpdates ⟨1/100, 0, 1, 10, 2⟩ ⟨1, 0⟩
          [(6000000000000000000, 5000000000000000000)]).Lambda
      ∧ (runShadowPriceUpdates ⟨1/100, 0, 1, 10, 2⟩ ⟨1, 0⟩
          [(6000000000000000000, 5000000000000000000)]).Lambda ≤ 10) :=
  ⟨(updateShadowPrice_spec ⟨1/100, 0, 1, 10, 2⟩ ⟨1, 0⟩ (by norm_num)).1
      6000000000000000000 5000000000000000000,
   (updateShadowPrice_spec ⟨1/100, 0, 1, 10, 2⟩ ⟨1, 0⟩ (by norm_num)).2
      (6000000000000000000, 5000000000000000000) []⟩

/-! ## fees/expectation/avg.go — FeeTracker (the capped `*big.Int` version
cited by the claims) -/

/-- The outlier cap hard-coded in `Tracker.OnBlockFinalized`:
`0.0001 ETH = 10^14 wei`. -/
def feeCap : Int := 100000000000000

/-- Model of `expectation.Tracker`.  The three Go maps become functions to
`Option` (`none` = key absent). -/
structure Tracker where
  WindowSize : Nat
  itxWindows : Int → Option (List Int)
  blockCount : Int → Option Int
  avg : Int → Option Int

/-- Model of `expectation.NewTracker`: a non-positive window size falls back
to the default 16. -/
def NewTracker (windowSize : Int) : Tracker :=
  { WindowSize := if windowSize ≤ 0 then 16 else windowSize.toNat
    itxWindows := fun _ => none
    blockCount := fun _ => none
    avg := fun _ => none }

/-- The per-block average computed at the top of `Tracker.OnBlockFinalized`:
sum and count run only over non-`nil`, strictly positive fees, each fee
capped at `feeCap`; `0` when the list or the positive subset is empty. -/
def blockAvgOf (fees : List (Option Int)) : Int :=
  if fees.isEmpty then 0
  else
    let sc := fees.foldl
      (fun (acc : Int × Int) fee =>
        match fee with
        | some v =>
          if 0 < v then (acc.1 + (if feeCap < v then feeCap else v), acc.2 + 1) else acc
        | none => acc)
      (0, 0)
    if 0 < sc.2 then Int.ediv sc.1 sc.2 else 0

/-- `window[len-K:]` truncation: keep only the last `WindowSize` entries. -/
def lastWindow (K : Nat) (w : List Int) : List Int :=
  if K < w.length then w.drop (w.length - K) else w

/-- Model of `Tracker.OnBlockFinalized` (including the inlined
`recomputeAvg`): append the capped block mean to the shard's window,
truncate to the window size, store the integer mean of the window. -/
def Tracker.OnBlockFinalized (t : Tracker) (shardID : Int)
    (itxFeesInBlock : List (Option Int)) : Tracker :=
  let blockAvg := blockAvgOf itxFeesInBlock
  let w0 := (t.itxWindows shardID).getD []
  let c0 := (t.blockCount shardID).getD 0
  let w1 := lastWindow t.WindowSize (w0 ++ [blockAvg])
  let newAvg := if w1.length = 0 then 0 else Int.ediv (w1.foldl (· + ·) 0) (w1.length : Int)
  { t with
    itxWindows := fun s => if s = shardID then some w1 else t.itxWindows s
    blockCount := fun s => if s = shardID then some (c0 + 1) else t.blockCount s
    avg := fun s => if s = shardID then some newAvg else t.avg s }

/-- Model of `Tracker.GetAvgITXFee`: stored mean, or 0 during bootstrap. -/
def Tracker.GetAvgITXFee (t : Tracker) (shardID : Int) : Int :=
  (t.avg shardID).getD 0

/-- The positive fees of a block, capped at `feeCap`. -/
def cappedPositives (fees : List (Option Int)) : List Int :=
  fees.filterMap fun fee =>
    match fee with
    | some v => if 0 < v then some (if feeCap < v then feeCap else v) else none
    | none => none

theorem blockAvg_foldl (fees : List (Option Int)) :
    ∀ s c : Int,
      fees.foldl
        (fun (acc : Int × Int) fee =>
          match fee with
          | some v =>
            if 0 < v then (acc.1 + (if feeCap < v then feeCap else v), acc.2 + 1) else acc
          | none => acc)
        (s, c)
      = (s + (cappedPositives fees).sum, c + (cappedPositives fees).length) := by
  induction fees with
  | nil => intro s c; simp [cappedPositives]
  | cons f rest ih =>
    intro s c
    match f with
    | none =>
      simp only [List.foldl_cons]
      rw [ih]
      simp [cappedPositives, List.filterMap_cons]
    | some v =>
      by_cases hv : 0 < v
      · simp only [List.foldl_cons, hv, if_true]
        rw [ih]
        simp only [cappedPositives, List.filterMap_cons, hv, if_true, Option.some.injEq,
          List.sum_cons, List.length_cons, Prod.mk.injEq]
        push_cast
        constructor <;> ring
      · simp only [List.foldl_cons, hv, if_false]
        rw [ih]
        simp [cappedPositives, List.filterMap_cons, hv]

/-- The appended block value equals the integer mean of the capped positive
fees (0 when there is none). -/
theorem blockAvgOf_eq (fees : List (Option Int)) :
    blockAvgOf fees
      = if cappedPositives fees = [] then 0
        else Int.ediv (cappedPositives fees).sum ((cappedPositives fees).length : Int) := by
  unfold blockAvgOf
  match fees with
  | [] => simp [cappedPositives]
  | f :: rest =>
    simp only [List.isEmpty_cons, Bool.false_eq_true, if_false, blockAvg_foldl]
    rcases hp : cappedPositives (f :: rest) with _ | ⟨x, xs⟩ <;> simp [hp]

/-- C3 counterexample: the claim states the value appended to the window
equals the integer division of the sum of the passed fees by their count.
Finalizing fees `[0, 100]` appends `100` (the code ignores non-positive
fees), not `(0 + 100) / 2 = 50`. -/
theorem tracker_blockMean_claim_false_at_0_100 :
    (Tracker.OnBlockFinalized (NewTracker 3) 0 [some 0, some 100]).itxWindows 0 = some [100]
    ∧ ((100 : Int) ≠ Int.ediv (0 + 100) 2) := by
  decide

/-- C3 (amended): on every `OnBlockFinalized(shard, fees)` call the value
appended to that shard's window is the integer mean of the *strictly
positive* fees, each capped at `10^14` wei (`0` when no positive fee
exists); the stored mean afterwards is the integer division of the sum of
the (truncated) window entries by the window length; with window size 3,
finalizing `[100,200,300]`, `[400,500]`, `[600]` stores mean 416 and then
finalizing `[900]` stores 650. -/
theorem tracker_onBlockFinalized_spec (t : Tracker) (shardID : Int)
    (fees : List (Option Int)) :
    ((t.OnBlockFinalized shardID fees).itxWindows shardID
      = some (lastWindow t.WindowSize
          (((t.itxWindows shardID).getD []) ++ [blockAvgOf fees])))
    ∧ (blockAvgOf fees
      = if cappedPositives fees = [] then 0
        else Int.ediv (cappedPositives fees).sum ((cappedPositives fees).length : Int))
    ∧ ((t.OnBlockFinalized shardID fees).avg shardID
      = some (
          let w := lastWindow t.WindowSize
            (((t.itxWindows shardID).getD []) ++ [blockAvgOf fees])
          if w.length = 0 then 0 else Int.ediv (w.foldl (· + ·) 0) (w.length : Int)))
    ∧ ((((((NewTracker 3).OnBlockFinalized 0 [some 100, some 200, some 300]
          ).OnBlockFinalized 0 [some 400, some 500]
          ).OnBlockFinalized 0 [some 600]).GetAvgITXFee 0 = 416)
      ∧ ((((((NewTracker 3).OnBlockFinalized 0 [some 100, some 200, some 300]
          ).OnBlockFinalized 0 [some 400, some 500]
          ).OnBlockFinalized 0 [some 600]).OnBlockFinalized 0 [some 900]).GetAvgITXFee 0 = 650)) :=
  ⟨by simp [Tracker.OnBlockFinalized],
   blockAvgOf_eq fees,
   by simp [Tracker.OnBlockFinalized],
   by decide, by decide⟩

/-! ## crossshard/pending/ledger.go — PendingLedger -/

/-- Model of `pending.Pending`.  `uint64` amounts become `Nat`
(no arithmetic is performed on them by the ledger operations verified
here), Go `int` shard ids become `Int`, `int64` timestamps become `Int`. -/
structure Pending where
  PairID : String
  ShardA : Int
  ShardB : Int
  FAB : Nat
  R : Nat
  EA : Nat
  EB : Nat
  UtilityA : Nat
  UtilityB : Nat
  SourceBlockID : String
  CreatedAt : Int
deriving DecidableEq, Repr

/-- Model of `pending.Ledger`: the `pending` map keyed by `PairID` becomes a
list looked up by key; the `settled` set becomes a list of keys. -/
structure Ledger where
  pending : List Pending
  settled : List String
deriving DecidableEq, Repr

/-- The empty ledger of `pending.NewLedger`. -/
def NewLedger : Ledger := { pending := [], settled := [] }

/-- Key lookup in the pending map. -/
def Ledger.lookupPending (l : Ledger) (pairID : String) : Option Pending :=
  l.pending.find? (fun p => p.PairID == pairID)

/-- Model of `Ledger.Add`: reject if the pairID is settled or already
pending, otherwise insert. -/
def Ledger.Add (l : Ledger) (p : Pending) : Except String Ledger :=
  if l.settled.contains p.PairID then
    .error ("transaction " ++ p.PairID ++ " already settled")
  else if (l.lookupPending p.PairID).isSome then
    .error ("transaction " ++ p.PairID ++ " already pending")
  else
    .ok { l with pending := p :: l.pending }

/-- A credit emitted through the callback passed to `Settle`:
`(shardID, proposerID, amount)`. -/
def Credit : Type := Int × String × Nat

instance : DecidableEq Credit := by
  unfold Credit
  infer_instance

/-- Model of `Ledger.Settle`.  The credit callback is modelled by the list
of invocations it receives, in order (empty on failure).  On success the
entry leaves `pending` and its key enters `settled` in the same step. -/
def Ledger.Settle (l : Ledger) (pairID destBlockID : String) :
    Except String Ledger × List Credit :=
  if l.settled.contains pairID then
    (.error ("transaction " ++ pairID ++ " already settled"), [])
  else
    match l.lookupPending pairID with
    | none => (.error ("transaction " ++ pairID ++ " not found in pending ledger"), [])
    | some p =>
      let sourceProposerID := "proposer_shard_" ++ toString p.ShardA ++ "_block_" ++ p.SourceBlockID
      let destProposerID := "proposer_shard_" ++ toString p.ShardB ++ "_block_" ++ destBlockID
      (.ok { pending := l.pending.filter (fun q => q.PairID ≠ pairID),
             settled := pairID :: l.settled },
       [(p.ShardA, sourceProposerID, p.UtilityA), (p.ShardB, destProposerID, p.UtilityB)])

/-- Model of `Ledger.IsPending`. -/
def Ledger.IsPending (l : Ledger) (pairID : String) : Bool :=
  (l.lookupPending pairID).isSome

/-- Model of `Ledger.IsSettled`. -/
def Ledger.IsSettled (l : Ledger) (pairID : String) : Bool :=
  l.settled.contains pairID

/-- Model of `Ledger.CleanupOld`: drop pending entries strictly older than
the threshold, returning the new ledger and the removed count.  Settled
entries are untouched. -/
def Ledger.CleanupOld (l : Ledger) (olderThan : Int) : Ledger × Nat :=
  let kept := l.pending.filter (fun p => ¬ p.CreatedAt < olderThan)
  ({ l with pending := kept }, l.pending.length - kept.length)

/-- C2: exactly-once settlement.  `Settle` fails (emitting no credit) when
the pairID is already settled or absent from pending — in this pure model a
failing call returns only the error, so no state change is produced — and
on success emits exactly two credits, `u_A` to the source shard's proposer
and `u_B` to the destination shard's proposer, removes the pairID from
`pending` and inserts it into `settled` in the same step. -/
theorem ledger_settle_spec (l : Ledger) (pairID destBlockID : String) :
    (l.IsSettled pairID = true →
      l.Settle pairID destBlockID
        = (.error ("transaction " ++ pairID ++ " already settled"), []))
    ∧ (l.IsSettled pairID = false → l.lookupPending pairID = none →
      l.Settle pairID destBlockID
        = (.error ("transaction " ++ pairID ++ " not found in pending ledger"), []))
    ∧ (∀ p : Pending, l.IsSettled pairID = false → l.lookupPending pairID = some p →
      (l.Settle pairID destBlockID
        = (.ok { pending := l.pending.filter (fun q => q.PairID ≠ pairID),
                 settled := pairID :: l.settled },
           [(p.ShardA, "proposer_shard_" ++ toString p.ShardA ++ "_block_" ++ p.SourceBlockID,
              p.UtilityA),
            (p.ShardB, "proposer_shard_" ++ toString p.ShardB ++ "_block_" ++ destBlockID,
              p.UtilityB)]))
      ∧ Ledger.IsPending
          { pending := l.pending.filter (fun q => q.PairID ≠ pairID),
            settled := pairID :: l.settled } pairID = false
      ∧ Ledger.IsSettled
          { pending := l.pending.filter (fun q => q.PairID ≠ pairID),
            settled := pairID :: l.settled } pairID = true) := by
  refine ⟨?_, ?_, ?_⟩
  · intro hs
    have hs' : pairID ∈ l.settled := by simpa [Ledger.IsSettled] using hs
    simp [Ledger.Settle, hs']
  · intro hs hn
    have hs' : pairID ∉ l.settled := by simpa [Ledger.IsSettled] using hs
    simp [Ledger.Settle, hs', hn]
  · intro p hs hp
    have hs' : pairID ∉ l.settled := by simpa [Ledger.IsSettled] using hs
    refine ⟨by simp [Ledger.Settle, hs', hp], ?_, by simp [Ledger.IsSettled]⟩
    have hnone : (List.filter (fun q => decide (q.PairID ≠ pairID)) l.pending).find?
        (fun p => p.PairID == pairID) = none := by
      rw [List.find?_eq_none]
      intro q hq
      rw [List.mem_filter] at hq
      have hne : q.PairID ≠ pairID := by simpa using hq.2
      simp [hne]
    simp [Ledger.IsPending, Ledger.lookupPending, hnone]

/-- Witness for `ledger_settle_spec`: the S5-style scenario — a ledger
holding one pending entry with `u_A = u_B = 75` settles exactly once with
the two expected credits. -/
theorem ledger_settle_spec_witness :
    Ledger.Settle
        { pending := [{ PairID := "a", ShardA := 0, ShardB := 1, FAB := 100, R := 50,
                        EA := 10, EB := 20, UtilityA := 75, UtilityB := 75,
                        SourceBlockID := "b0", CreatedAt := 5 }],
          settled := [] } "a" "b1"
      = (.ok { pending := List.filter (fun q => q.PairID ≠ "a")
                 [{ PairID := "a", ShardA := 0, ShardB := 1, FAB := 100, R := 50,
                    EA := 10, EB := 20, UtilityA := 75, UtilityB := 75,
                    SourceBlockID := "b0", CreatedAt := 5 }],
               settled := ["a"] },
         [(0, "proposer_shard_" ++ toString (0 : Int) ++ "_block_" ++ "b0", 75),
          (1, "proposer_shard_" ++ toString (1 : Int) ++ "_block_" ++ "b1", 75)]) :=
  ((ledger_settle_spec
      { pending := [{ PairID := "a", ShardA := 0, ShardB := 1, FAB := 100, R := 50,
                      EA := 10, EB := 20, UtilityA := 75, UtilityB := 75,
                      SourceBlockID := "b0", CreatedAt := 5 }],
        settled := [] } "a" "b1").2.2
    { PairID := "a", ShardA := 0, ShardB := 1, FAB := 100, R := 50,
      EA := 10, EB := 20, UtilityA := 75, UtilityB := 75,
      SourceBlockID := "b0", CreatedAt := 5 } (by decide) (by decide)).1

/-- C9: a pairID removed by `CleanupOld` is re-addable.  If every pending
entry under `pid` is older than the threshold and `pid` was never settled,
then after `CleanupOld` a fresh `Add` under the same pairID succeeds:
cleanup returns the pairID to the absent state, not a terminal one. -/
theorem ledger_cleanup_readd (l : Ledger) (pid : String) (pNew : Pending) (olderThan : Int)
    (hall : ∀ q ∈ l.pending, q.PairID = pid → q.CreatedAt < olderThan)
    (hns : l.IsSettled pid = false)
    (hp : pNew.PairID = pid) :
    (l.CleanupOld olderThan).1.Add pNew
      = .ok { pending := pNew :: (l.CleanupOld olderThan).1.pending,
              settled := l.settled } := by
  have hfind : ((l.CleanupOld olderThan).1.lookupPending pid) = none := by
    rw [Ledger.lookupPending, List.find?_eq_none]
    intro q hq
    simp only [Ledger.CleanupOld] at hq
    rw [List.mem_filter] at hq
    have hge : ¬ q.CreatedAt < olderThan := by simpa using hq.2
    simp only [beq_iff_eq]
    intro hqe
    exact absurd (hall q hq.1 hqe) hge
  have hset : (l.CleanupOld olderThan).1.settled = l.settled := rfl
  have hns' : pid ∉ l.settled := by
    simp only [Ledger.IsSettled] at hns
    simpa using hns
  simp [Ledger.Add, hset, hp, hns', hfind]

/-- Witness for `ledger_cleanup_readd`: one stale entry (created at 5,
threshold 10) is cleaned up and the same pairID is added again. -/
theorem ledger_cleanup_readd_witness :
    (Ledger.CleanupOld
        { pending := [{ PairID := "a", ShardA := 0, ShardB := 1, FAB := 1, R := 1,
                        EA := 1, EB := 1, UtilityA := 1, UtilityB := 1,
                        SourceBlockID := "b0", CreatedAt := 5 }],
          settled := [] } 10).1.Add
      { PairID := "a", ShardA := 0, ShardB := 1, FAB := 2, R := 2,
        EA := 2, EB := 2, UtilityA := 2, UtilityB := 2,
        SourceBlockID := "b9", CreatedAt := 50 }
      = .ok { pending := { PairID := "a", ShardA := 0, ShardB := 1, FAB := 2, R := 2,
                           EA := 2, EB := 2, UtilityA := 2, UtilityB := 2,
                           SourceBlockID := "b9", CreatedAt := 50 }
                :: (Ledger.CleanupOld
                     { pending := [{ PairID := "a", ShardA := 0, ShardB := 1, FAB := 1, R := 1,
                                     EA := 1, EB := 1, UtilityA := 1, UtilityB := 1,
                                     SourceBlockID := "b0", CreatedAt := 5 }],
                       settled := [] } 10).1.pending,
              settled := [] } :=
  ledger_cleanup_readd
    { pending := [{ PairID := "a", ShardA := 0, ShardB := 1, FAB := 1, R := 1,
                    EA := 1, EB := 1, UtilityA := 1, UtilityB := 1,
                    SourceBlockID := "b0", CreatedAt := 5 }],
      settled := [] } "a"
    { PairID := "a", ShardA := 0, ShardB := 1, FAB := 2, R := 2,
      EA := 2, EB := 2, UtilityA := 2, UtilityB := 2,
      SourceBlockID := "b9", CreatedAt := 50 } 10
    (by decide) (by decide) (by decide)

/-! ## txpool/scheduler/select.go — three-phase selector -/

/-- Model of `core.Transaction` restricted to the fields the scheduler
reads or writes.  `ArrivalTime` (a Go `time.Time` compared with `Before`)
is modelled as an integer instant. -/
structure TxM where
  IsCrossShard : Bool
  FromShard : Int
  ToShard : Int
  FeeToProposer : Option Int
  ArrivalTime : Int
  SubsidyR : Option Int
  UtilityA : Option Int
  UtilityB : Option Int
  JustitiaCase : Int
deriving DecidableEq, Repr

/-- `Mechanism.CalculateRAB` viewed as a function of its three arguments
(the mechanism's internal state is baked into the function).  Quantifying
over this type captures that the mechanism has no access to the transaction
fee: its only inputs are `E_A`, `E_B` and the metrics. -/
def MechCalc : Type := Option Int → Option Int → DynamicMetrics → Int

/-- The literal metrics value constructed inside `scoreCTX`
(`DynamicMetrics{QueueLengthB: 600}`). -/
def schedulerMetrics : DynamicMetrics :=
  { QueueLengthA := 0, QueueLengthB := 600, AvgWaitTimeA := 0, AvgWaitTimeB := 0,
    CurrentInflation := none }

/-- The `E_A`, `E_B` pair used by `scoreCTX`: the passed local average and
the destination's tracked average when this shard is the source, otherwise
both source and local averages are read from the tracker. -/
def ctxAvgs (tracker : Tracker) (shardID : Int) (tx : TxM) (EA0 : Int) : Int × Int :=
  if tx.FromShard = shardID then (EA0, tracker.GetAvgITXFee tx.ToShard)
  else (tracker.GetAvgITXFee tx.FromShard, tracker.GetAvgITXFee shardID)

/-- The subsidy `R` computed by `scoreCTX`: `Mechanism.CalculateRAB` when a
mechanism is present (PID/Lagrangian modes), the stateless `RAB` otherwise.
Note that the transaction fee is not an input of either path. -/
def ctxSubsidy (mech : Option MechCalc) (mode : SubsidyMode)
    (customF : Option (Option Int → Option Int → Option Int))
    (tracker : Tracker) (shardID : Int) (tx : TxM) (EA0 : Int) : Int :=
  let eab := ctxAvgs tracker shardID tx EA0
  match mech with
  | some mcalc => mcalc (some eab.1) (some eab.2) schedulerMetrics
  | none => RAB mode (some eab.1) (some eab.2) none customF

/-- Result of `Scheduler.scoreCTX`: the score, the case, the mutated
transaction, and the amount added to the scheduler's `epochSubsidyTotal`
(Lagrangian bookkeeping). -/
structure ScoreResult where
  score : Int
  txCase : Int
  tx : TxM
  epochDelta : Int
deriving DecidableEq, Repr

/-- Model of `Scheduler.scoreCTX`. -/
def scoreCTX (mech : Option MechCalc) (mode : SubsidyMode)
    (customF : Option (Option Int → Option Int → Option Int))
    (tracker : Tracker) (shardID : Int) (tx : TxM) (EA0 : Int) : ScoreResult :=
  let eab := ctxAvgs tracker shardID tx EA0
  let R := ctxSubsidy mech mode customF tracker shardID tx EA0
  let epochDelta := match mech with
    | some _ => if mode = SubsidyMode.SubsidyLagrangian then R else 0
    | none => 0
  let fee := tx.FeeToProposer.getD 0
  let uAB := Split2 fee R eab.1 eab.2
  let tx1 := { tx with SubsidyR := some R, UtilityA := some uAB.1, UtilityB := some uAB.2 }
  if tx.FromShard = shardID then
    let c := Classify uAB.1 eab.1 eab.2
    { score := uAB.1, txCase := c, tx := { tx1 with JustitiaCase := c }, epochDelta := epochDelta }
  else
    { score := uAB.2, txCase := Case1,
      tx := if tx1.JustitiaCase = 0 then { tx1 with JustitiaCase := Case1 } else tx1,
      epochDelta := epochDelta }

/-- Model of `scheduler.TxWithScore`. -/
structure TxWithScore where
  Tx : TxM
  Score : Int
  Case : Int
deriving DecidableEq, Repr

/-- The scoring loop at the top of `SelectForBlock`. -/
def scoreAll (mech : Option MechCalc) (mode : SubsidyMode)
    (customF : Option (Option Int → Option Int → Option Int))
    (tracker : Tracker) (shardID : Int) (txPool : List TxM) (EA : Int) :
    List TxWithScore :=
  txPool.map fun tx =>
    if tx.IsCrossShard then
      let r := scoreCTX mech mode customF tracker shardID tx EA
      { Tx := r.tx, Score := r.score, Case := r.txCase }
    else
      { Tx := tx, Score := tx.FeeToProposer.getD 0, Case := 0 }

/-- Phase 1: CTX classified Case1, and ITX whose fee is at least the local
average. -/
def schedPhase1 (scored : List TxWithScore) (EA : Int) : List TxWithScore :=
  scored.filter fun s => if s.Tx.IsCrossShard then s.Case == Case1 else decide (EA ≤ s.Score)

/-- Phase 2: CTX classified Case3, and ITX below the local average. -/
def schedPhase2 (scored : List TxWithScore) (EA : Int) : List TxWithScore :=
  scored.filter fun s => if s.Tx.IsCrossShard then s.Case == Case3 else decide (s.Score < EA)

/-- Phase 3: CTX classified Case2 (deferred, not dropped). -/
def schedPhase3 (scored : List TxWithScore) : List TxWithScore :=
  scored.filter fun s => s.Tx.IsCrossShard && s.Case == Case2

/-- The order produced by `sort.Slice` under the comparator
"higher score first, FIFO arrival on ties": `a` may precede `b` iff `b`'s
score does not exceed `a`'s, and on equal scores `a` does not arrive
later. -/
def schedLE (a b : TxWithScore) : Prop :=
  b.Score ≤ a.Score ∧ (b.Score = a.Score → a.Tx.ArrivalTime ≤ b.Tx.ArrivalTime)

instance : DecidableRel schedLE := fun a b => by
  unfold schedLE
  infer_instance

instance : IsTotal TxWithScore schedLE where
  total a b := by
    unfold schedLE
    rcases lt_trichotomy a.Score b.Score with h | h | h
    · exact Or.inr ⟨le_of_lt h, fun he => absurd he (ne_of_lt h)⟩
    · rcases le_total a.Tx.ArrivalTime b.Tx.ArrivalTime with ha | ha
      · exact Or.inl ⟨le_of_eq h.symm, fun _ => ha⟩
      · exact Or.inr ⟨le_of_eq h, fun _ => ha⟩
    · exact Or.inl ⟨le_of_lt h, fun he => absurd he (ne_of_lt h)⟩

instance : IsTrans TxWithScore schedLE where
  trans a b c := by
    unfold schedLE
    intro hab hbc
    refine ⟨le_trans hbc.1 hab.1, fun hca => ?_⟩
    have hba : b.Score = a.Score := le_antisymm hab.1 (hca ▸ hbc.1)
    have hcb : c.Score = b.Score := by omega
    exact le_trans (hab.2 hba) (hbc.2 hcb)

/-- Sorting of one phase: descending score, FIFO tie-break. -/
def sortPhase : List TxWithScore → List TxWithScore :=
  List.insertionSort schedLE

/-- Model of `Scheduler.SelectForBlock`: score the pool, partition into the
three phases, sort each phase, and fill the block in phase order up to
capacity. -/
def SelectForBlock (mech : Option MechCalc) (mode : SubsidyMode)
    (customF : Option (Option Int → Option Int → Option Int))
    (tracker : Tracker) (shardID capacity : Int) (txPool : List TxM) : List TxM :=
  if capacity ≤ 0 ∨ txPool.isEmpty then []
  else
    let EA := tracker.GetAvgITXFee shardID
    let scored := scoreAll mech mode customF tracker shardID txPool EA
    ((sortPhase (schedPhase1 scored EA) ++ sortPhase (schedPhase2 scored EA)
        ++ sortPhase (schedPhase3 scored)).map TxWithScore.Tx).take capacity.toNat

theorem scoreCTX_SubsidyR (mech : Option MechCalc) (mode : SubsidyMode)
    (customF : Option (Option Int → Option Int → Option Int))
    (tracker : Tracker) (shardID : Int) (tx : TxM) (EA : Int) :
    (scoreCTX mech mode customF tracker shardID tx EA).tx.SubsidyR
      = some (ctxSubsidy mech mode customF tracker shardID tx EA) := by
  simp only [scoreCTX]
  split_ifs <;> simp

/-- C6: subsidy independence from the transaction fee.  For any mechanism
function (quantified over all `MechCalc`, covering `Mechanism.CalculateRAB`
under any internal state), any mode, tracker state and custom function, two
scoring runs that differ only in `FeeToProposer` produce the same stored
subsidy; the subsidy written by `scoreCTX` is exactly
`ctxSubsidy` — a function of the mechanism/mode, `E_A`, `E_B`, the fixed
metrics and the custom function — which never reads the fee. -/
theorem subsidy_independent_of_fee (mech : Option MechCalc) (mode : SubsidyMode)
    (customF : Option (Option Int → Option Int → Option Int))
    (tracker : Tracker) (shardID : Int) (tx : TxM) (EA : Int) (f1 f2 : Option Int) :
    ((scoreCTX mech mode customF tracker shardID { tx with FeeToProposer := f1 } EA).tx.SubsidyR
      = (scoreCTX mech mode customF tracker shardID { tx with FeeToProposer := f2 } EA).tx.SubsidyR)
    ∧ ((scoreCTX mech mode customF tracker shardID tx EA).tx.SubsidyR
      = some (ctxSubsidy mech mode customF tracker shardID tx EA))
    ∧ (∀ g : Option Int,
        ctxSubsidy mech mode customF tracker shardID { tx with FeeToProposer := g } EA
          = ctxSubsidy mech mode customF tracker shardID tx EA) := by
  have hfee : ∀ g : Option Int,
      ctxSubsidy mech mode customF tracker shardID { tx with FeeToProposer := g } EA
        = ctxSubsidy mech mode customF tracker shardID tx EA := by
    intro g
    cases tx
    rfl
  exact ⟨by simp only [scoreCTX_SubsidyR, hfee],
         scoreCTX_SubsidyR mech mode customF tracker shardID tx EA,
         hfee⟩

/-- C5: three-phase selection.  The selector returns at most `capacity`
transactions; each phase is sorted descending by score with FIFO tie-break
(`schedLE`); when the guard passes, the output is exactly the first
`capacity` elements of phase 1 ++ phase 2 ++ phase 3 (so selection stops at
capacity and phases fill in order); and whenever phases 1 and 2 alone reach
capacity, the output is drawn entirely from them — a Case2 CTX (phase 3)
can appear only if phases 1+2 left space. -/
theorem selectForBlock_spec (mech : Option MechCalc) (mode : SubsidyMode)
    (customF : Option (Option Int → Option Int → Option Int))
    (tracker : Tracker) (shardID capacity : Int) (txPool : List TxM) :
    (SelectForBlock mech mode customF tracker shardID capacity txPool).length ≤ capacity.toNat
    ∧ List.Sorted schedLE (sortPhase (schedPhase1
        (scoreAll mech mode customF tracker shardID txPool (tracker.GetAvgITXFee shardID))
        (tracker.GetAvgITXFee shardID)))
    ∧ List.Sorted schedLE (sortPhase (schedPhase2
        (scoreAll mech mode customF tracker shardID txPool (tracker.GetAvgITXFee shardID))
        (tracker.GetAvgITXFee shardID)))
    ∧ List.Sorted schedLE (sortPhase (schedPhase3
        (scoreAll mech mode customF tracker shardID txPool (tracker.GetAvgITXFee shardID))))
    ∧ (¬ (capacity ≤ 0 ∨ txPool.isEmpty) →
        SelectForBlock mech mode customF tracker shardID capacity txPool
          = ((sortPhase (schedPhase1
                (scoreAll mech mode customF tracker shardID txPool (tracker.GetAvgITXFee shardID))
                (tracker.GetAvgITXFee shardID))
              ++ sortPhase (schedPhase2
                (scoreAll mech mode customF tracker shardID txPool (tracker.GetAvgITXFee shardID))
                (tracker.GetAvgITXFee shardID))
              ++ sortPhase (schedPhase3
                (scoreAll mech mode customF tracker shardID txPool
                  (tracker.GetAvgITXFee shardID)))).map TxWithScore.Tx).take capacity.toNat)
    ∧ (capacity.toNat
        ≤ (schedPhase1
            (scoreAll mech mode customF tracker shardID txPool (tracker.GetAvgITXFee shardID))
            (tracker.GetAvgITXFee shardID)).length
          + (schedPhase2
            (scoreAll mech mode customF tracker shardID txPool (tracker.GetAvgITXFee shardID))
            (tracker.GetAvgITXFee shardID)).length →
        ((sortPhase (schedPhase1
              (scoreAll mech mode customF tracker shardID txPool (tracker.GetAvgITXFee shardID))
              (tracker.GetAvgITXFee shardID))
            ++ sortPhase (schedPhase2
              (scoreAll mech mode customF tracker shardID txPool (tracker.GetAvgITXFee shardID))
              (tracker.GetAvgITXFee shardID))
            ++ sortPhase (schedPhase3
              (scoreAll mech mode customF tracker shardID txPool
                (tracker.GetAvgITXFee shardID)))).map TxWithScore.Tx).take capacity.toNat
          = ((sortPhase (schedPhase1
                (scoreAll mech mode customF tracker shardID txPool (tracker.GetAvgITXFee shardID))
                (tracker.GetAvgITXFee shardID))
              ++ sortPhase (schedPhase2
                (scoreAll mech mode customF tracker shardID txPool
                  (tracker.GetAvgITXFee shardID))
                (tracker.GetAvgITXFee shardID))).map TxWithScore.Tx).take capacity.toNat) := by
  refine ⟨?_, List.sorted_insertionSort schedLE _, List.sorted_insertionSort schedLE _,
    List.sorted_insertionSort schedLE _, ?_, ?_⟩
  · rw [SelectForBlock]
    split_ifs with h
    · simp
    · exact List.length_take_le _ _
  · intro h
    rw [SelectForBlock, if_neg h]
  · intro hcap
    rw [List.map_append]
    refine List.take_append_of_le_length ?_
    rw [List.length_map, List.length_append]
    unfold sortPhase
    rw [List.length_insertionSort, List.length_insertionSort]
    exact hcap

/-- Two concrete intra-shard transactions used to witness the selector. -/
def txITXa : TxM :=
  { IsCrossShard := false, FromShard := 0, ToShard := 0, FeeToProposer := some 5,
    ArrivalTime := 1, SubsidyR := none, UtilityA := none, UtilityB := none, JustitiaCase := 0 }

def txITXb : TxM :=
  { IsCrossShard := false, FromShard := 0, ToShard := 0, FeeToProposer := some 3,
    ArrivalTime := 2, SubsidyR := none, UtilityA := none, UtilityB := none, JustitiaCase := 0 }

/-- Witness for `selectForBlock_spec`: capacity 1 over a two-ITX pool whose
phases 1+2 already fill the block, so no phase-3 transaction is drawn. -/
theorem selectForBlock_spec_witness :
    (SelectForBlock none SubsidyMode.SubsidyNone none (NewTracker 3) 0 1 [txITXa, txITXb]
      = ((sortPhase (schedPhase1
            (scoreAll none SubsidyMode.SubsidyNone none (NewTracker 3) 0 [txITXa, txITXb]
              ((NewTracker 3).GetAvgITXFee 0))
            ((NewTracker 3).GetAvgITXFee 0))
          ++ sortPhase (schedPhase2
            (scoreAll none SubsidyMode.SubsidyNone none (NewTracker 3) 0 [txITXa, txITXb]
              ((NewTracker 3).GetAvgITXFee 0))
            ((NewTracker 3).GetAvgITXFee 0))
          ++ sortPhase (schedPhase3
            (scoreAll none SubsidyMode.SubsidyNone none (NewTracker 3) 0 [txITXa, txITXb]
              ((NewTracker 3).GetAvgITXFee 0)))).map TxWithScore.Tx).take (1 : Int).toNat)
    ∧ (((sortPhase (schedPhase1
            (scoreAll none SubsidyMode.SubsidyNone none (NewTracker 3) 0 [txITXa, txITXb]
              ((NewTracker 3).GetAvgITXFee 0))
            ((NewTracker 3).GetAvgITXFee 0))
          ++ sortPhase (schedPhase2
            (scoreAll none SubsidyMode.SubsidyNone none (NewTracker 3) 0 [txITXa, txITXb]
              ((NewTracker 3).GetAvgITXFee 0))
            ((NewTracker 3).GetAvgITXFee 0))
          ++ sortPhase (schedPhase3
            (scoreAll none SubsidyMode.SubsidyNone none (NewTracker 3) 0 [txITXa, txITXb]
              ((NewTracker 3).GetAvgITXFee 0)))).map TxWithScore.Tx).take (1 : Int).toNat
      = ((sortPhase (schedPhase1
            (scoreAll none SubsidyMode.SubsidyNone none (NewTracker 3) 0 [txITXa, txITXb]
              ((NewTracker 3).GetAvgITXFee 0))
            ((NewTracker 3).GetAvgITXFee 0))
          ++ sortPhase (schedPhase2
            (scoreAll none SubsidyMode.SubsidyNone none (NewTracker 3) 0 [txITXa, txITXb]
              ((NewTracker 3).GetAvgITXFee 0))
            ((NewTracker 3).GetAvgITXFee 0))).map TxWithScore.Tx).take (1 : Int).toNat) :=
  ⟨(selectForBlock_spec none SubsidyMode.SubsidyNone none (NewTracker 3) 0 1
      [txITXa, txITXb]).2.2.2.2.1 (by decide),
   (selectForBlock_spec none SubsidyMode.SubsidyNone none (NewTracker 3) 0 1
      [txITXa, txITXb]).2.2.2.2.2 (by decide)⟩

/-! ## ingest/ethcsv (src/unnamed/part_006) — proposer fee computation -/

/-- Model of `ethcsv.TxRow` restricted to the fields `ComputeProposerFee`
can read, plus the blob fields it must not count.  `*big.Int` fields are
`Option Int` (`none` = `nil`); `uint64`/`uint8` fields are `Nat`. -/
structure TxRow where
  GasPrice : Option Int
  GasUsed : Nat
  EIP2718Type : Nat
  BaseFeePerGas : Option Int
  MaxFeePerGas : Option Int
  MaxPriorityFeePerGas : Option Int
  IsError : Bool
  BlobBaseFeePerGas : Option Int
  BlobGasUsed : Nat
deriving DecidableEq, Repr

/-- Model of `ethcsv.ComputeProposerFee`: legacy/2930 pay `gasUsed×gasPrice`;
1559/4844 pay only the execution-gas tip; unknown types pay zero; blob gas
and the burned base fee are never counted. -/
def ComputeProposerFee (r : TxRow) : Int :=
  if r.GasUsed = 0 then 0
  else
    match r.EIP2718Type with
    | 0 | 1 =>
      match r.GasPrice with
      | none => 0
      | some gp => (r.GasUsed : Int) * gp
    | 2 | 3 =>
      match r.BaseFeePerGas, r.MaxFeePerGas, r.MaxPriorityFeePerGas with
      | some base, some maxF, some prio =>
        let sum := base + prio
        let effective := if sum < maxF then sum else maxF
        let tip := if effective - base < 0 then 0 else effective - base
        (r.GasUsed : Int) * tip
      | _, _, _ => 0
    | _ => 0

/-- C8: proposer fee computation.  Legacy types pay `gasUsed · gasPrice`;
EIP-1559/4844 types pay `gasUsed · max (min maxFee (base + prio) − base) 0`;
`isError` and the blob fields never affect the result; any other type pays
zero. -/
theorem computeProposerFee_spec (r : TxRow) :
    (∀ gp : Int, (r.EIP2718Type = 0 ∨ r.EIP2718Type = 1) → r.GasPrice = some gp →
      ComputeProposerFee r = (r.GasUsed : Int) * gp)
    ∧ (∀ base maxF prio : Int, (r.EIP2718Type = 2 ∨ r.EIP2718Type = 3) →
        r.BaseFeePerGas = some base → r.MaxFeePerGas = some maxF →
        r.MaxPriorityFeePerGas = some prio →
        ComputeProposerFee r
          = (r.GasUsed : Int) * max (min maxF (base + prio) - base) 0)
    ∧ (∀ b : Bool, ComputeProposerFee { r with IsError := b } = ComputeProposerFee r)
    ∧ (∀ (bb : Option Int) (bg : Nat),
        ComputeProposerFee { r with BlobBaseFeePerGas := bb, BlobGasUsed := bg }
          = ComputeProposerFee r)
    ∧ (r.EIP2718Type ≠ 0 → r.EIP2718Type ≠ 1 → r.EIP2718Type ≠ 2 → r.EIP2718Type ≠ 3 →
        ComputeProposerFee r = 0) := by
  refine ⟨?_, ?_, ?_, ?_, ?_⟩
  · intro gp ht hgp
    rcases Nat.eq_zero_or_pos r.GasUsed with hg | hg
    · simp [ComputeProposerFee, hg]
    · rcases ht with ht | ht <;> simp [ComputeProposerFee, ht, hgp, Nat.pos_iff_ne_zero.mp hg]
  · intro base maxF prio ht hb hm hp
    rcases Nat.eq_zero_or_pos r.GasUsed with hg | hg
    · simp [ComputeProposerFee, hg]
    · have hg' : r.GasUsed ≠ 0 := Nat.pos_iff_ne_zero.mp hg
      have key : ∀ x y : Int, (if x < y then x else y) = min y x := by
        intro x y
        rw [min_def]
        split_ifs <;> omega
      have tipEq : ∀ z : Int, (if z < 0 then (0 : Int) else z) = max z 0 := by
        intro z
        rw [max_def]
        split_ifs <;> omega
      rcases ht with ht | ht <;>
        (simp [ComputeProposerFee, ht, hb, hm, hp, hg', key, tipEq]
         split_ifs with hcond
         · have h0 : (maxF ⊓ (base + prio) - base) ⊔ 0 = 0 := by omega
           rw [h0, mul_zero]
         · have h1 : (maxF ⊓ (base + prio) - base) ⊔ 0 = maxF ⊓ (base + prio) - base := by
             omega
           rw [h1])
  · intro b
    cases r
    rfl
  · intro bb bg
    cases r
    rfl
  · intro h0 h1 h2 h3
    rcases Nat.eq_zero_or_pos r.GasUsed with hg | hg
    · simp [ComputeProposerFee, hg]
    · have hg' : r.GasUsed ≠ 0 := Nat.pos_iff_ne_zero.mp hg
      rcases hty : r.EIP2718Type with _ | _ | _ | _ | n <;> simp_all [ComputeProposerFee]

/-- Concrete CSV rows used to witness the proposer-fee computation. -/
def rowLegacy : TxRow :=
  { GasPrice := some 7, GasUsed := 3, EIP2718Type := 0, BaseFeePerGas := none,
    MaxFeePerGas := none, MaxPriorityFeePerGas := none, IsError := true,
    BlobBaseFeePerGas := none, BlobGasUsed := 0 }

def row1559 : TxRow :=
  { GasPrice := none, GasUsed := 2, EIP2718Type := 2, BaseFeePerGas := some 10,
    MaxFeePerGas := some 25, MaxPriorityFeePerGas := some 4, IsError := false,
    BlobBaseFeePerGas := some 99, BlobGasUsed := 5 }

def rowUnknown : TxRow :=
  { GasPrice := some 7, GasUsed := 3, EIP2718Type := 9, BaseFeePerGas := some 10,
    MaxFeePerGas := some 25, MaxPriorityFeePerGas := some 4, IsError := false,
    BlobBaseFeePerGas := none, BlobGasUsed := 0 }

/-- Witness for `computeProposerFee_spec`: a legacy row pays
`gasUsed · gasPrice`, an EIP-1559 row pays the tip only, an unknown type
pays zero. -/
theorem computeProposerFee_spec_witness :
    (ComputeProposerFee rowLegacy = (rowLegacy.GasUsed : Int) * 7)
    ∧ (ComputeProposerFee row1559
        = (row1559.GasUsed : Int) * max (min 25 (10 + 4) - 10) 0)
    ∧ (ComputeProposerFee rowUnknown = 0) :=
  ⟨(computeProposerFee_spec rowLegacy).1 7 (Or.inl rfl) rfl,
   (computeProposerFee_spec row1559).2.1 10 25 4 (Or.inl rfl) rfl rfl rfl,
   (computeProposerFee_spec rowUnknown).2.2.2.2 (by decide) (by decide) (by decide) (by decide)⟩

/-! ## ingest/ethcsv (src/unnamed/part_006) — shard map

`MapShard` lowercases the address, strips one leading `"0x"`, hashes the
remaining bytes with SHA-256 and reduces the first 8 bytes (big-endian)
modulo the shard count.  SHA-256 is implemented below (FIPS 180-4) over
byte lists, with 32-bit words as `Nat` reduced mod `2^32`; bitwise
operations are defined by 32-round binary recursion so that every step is
plain arithmetic. -/

def w32 (x : Nat) : Nat := x % 4294967296

/-- Bitwise combination of two 32-bit words, one binary digit at a time. -/
def bitop (f : Nat → Nat → Nat) : Nat → Nat → Nat → Nat
  | 0, _, _ => 0
  | fuel+1, x, y => f (x % 2) (y % 2) + 2 * bitop f fuel (x / 2) (y / 2)

def xor32 (x y : Nat) : Nat := bitop (fun a b => (a + b) % 2) 32 x y

def and32 (x y : Nat) : Nat := bitop (fun a b => a * b) 32 x y

/-- 32-bit complement (arguments are < 2^32 in all uses). -/
def not32 (x : Nat) : Nat := 4294967295 - x

def rotr32 (n x : Nat) : Nat := x / 2 ^ n + x % 2 ^ n * 2 ^ (32 - n)

def shr32 (n x : Nat) : Nat := x / 2 ^ n

def smallSigma0 (x : Nat) : Nat := xor32 (xor32 (rotr32 7 x) (rotr32 18 x)) (shr32 3 x)

def smallSigma1 (x : Nat) : Nat := xor32 (xor32 (rotr32 17 x) (rotr32 19 x)) (shr32 10 x)

def bigSigma0 (x : Nat) : Nat := xor32 (xor32 (rotr32 2 x) (rotr32 13 x)) (rotr32 22 x)

def bigSigma1 (x : Nat) : Nat := xor32 (xor32 (rotr32 6 x) (rotr32 11 x)) (rotr32 25 x)

def chFn (e f g : Nat) : Nat := xor32 (and32 e f) (and32 (not32 e) g)

def majFn (a b c : Nat) : Nat := xor32 (xor32 (and32 a b) (and32 a c)) (and32 b c)

/-- The 64 SHA-256 round constants. -/
def shaK : List Nat :=
  [1116352408, 1899447441, 3049323471, 3921009573, 961987163,
   1508970993, 2453635748, 2870763221, 3624381080, 310598401,
   607225278, 1426881987, 1925078388, 2162078206, 2614888103,
   3248222580, 3835390401, 4022224774, 264347078, 604807628,
   770255983, 1249150122, 1555081692, 1996064986, 2554220882,
   2821834349, 2952996808, 3210313671, 3336571891, 3584528711,
   113926993, 338241895, 666307205, 773529912, 1294757372,
   1396182291, 1695183700, 1986661051, 2177026350, 2456956037,
   2730485921, 2820302411, 3259730800, 3345764771, 3516065817,
   3600352804, 4094571909, 275423344, 430227734, 506948616,
   659060556, 883997877, 958139571, 1322822218, 1537002063,
   1747873779, 1955562222, 2024104815, 2227730452, 2361852424,
   2428436474, 2756734187, 3204031479, 3329325298]

/-- The SHA-256 initial hash state. -/
def shaH0 : List Nat :=
  [1779033703, 3144134277, 1013904242, 2773480762, 1359893119,
   2600822924, 528734635, 1541459225]

/-- Big-endian packing of bytes into 32-bit words. -/
def toWords : List Nat → List Nat
  | b0 :: b1 :: b2 :: b3 :: rest => (((b0 * 256 + b1) * 256 + b2) * 256 + b3) :: toWords rest
  | _ => []

/-- Extends the 16 chunk words to the 64-entry message schedule. -/
def extendSchedule : Nat → List Nat → List Nat
  | 0, acc => acc
  | n+1, acc =>
    let L := acc.length
    let g := fun k => acc.getD (L - k) 0
    extendSchedule n (acc ++ [w32 (g 16 + smallSigma0 (g 15) + g 7 + smallSigma1 (g 2))])

/-- One SHA-256 compression round on the state `[a,b,c,d,e,f,g,h]`. -/
def compressStep (st : List Nat) (kw : Nat × Nat) : List Nat :=
  match st with
  | [a, b, c, d, e, f, g, h] =>
    let t1 := w32 (h + bigSigma1 e + chFn e f g + kw.1 + kw.2)
    let t2 := w32 (bigSigma0 a + majFn a b c)
    [w32 (t1 + t2), a, b, c, w32 (d + t1), e, f, g]
  | _ => st

/-- Process one 64-byte chunk. -/
def processChunk (hs : List Nat) (chunk : List Nat) : List Nat :=
  let w := extendSchedule 48 (toWords chunk)
  let st := (shaK.zip w).foldl compressStep hs
  (hs.zip st).map (fun p => w32 (p.1 + p.2))

/-- Big-endian bytes of a number, fixed width `k`. -/
def natToBytesBE : Nat → Nat → List Nat
  | 0, _ => []
  | k+1, n => natToBytesBE k (n / 256) ++ [n % 256]

/-- SHA-256 padding: `0x80`, zeros to 56 mod 64, 8-byte big-endian bit
length. -/
def padMsg (msg : List Nat) : List Nat :=
  msg ++ [128] ++ List.replicate ((119 - msg.length % 64) % 64) 0
    ++ natToBytesBE 8 (msg.length * 8)

/-- Iterate over the 64-byte chunks of the padded message. -/
def processAll : Nat → List Nat → List Nat → List Nat
  | 0, hs, _ => hs
  | n+1, hs, bytes => processAll n (processChunk hs (bytes.take 64)) (bytes.drop 64)

/-- The SHA-256 digest (32 bytes) of a byte list. -/
def sha256Bytes (msg : List Nat) : List Nat :=
  let padded := padMsg msg
  ((processAll (padded.length / 64) shaH0 padded).map (natToBytesBE 4)).flatten

/-- `binary.BigEndian.Uint64(hash[:8])`. -/
def beUint64 (bytes : List Nat) : Nat :=
  (bytes.take 8).foldl (fun acc b => acc * 256 + b) 0

/-- ASCII lowercasing, the restriction of Go `strings.ToLower` to the ASCII
addresses the ingester handles (the hashed bytes of an ASCII string are its
character codes). -/
def asciiLowerChar (c : Char) : Char :=
  if 'A' ≤ c ∧ c ≤ 'Z' then Char.ofNat (c.toNat + 32) else c

def lowerData (s : String) : List Char := s.data.map asciiLowerChar

/-- `strings.TrimPrefix(·, "0x")`: drop one leading `0x` if present. -/
def trimOx : List Char → List Char
  | c1 :: c2 :: rest => if c1 = '0' ∧ c2 = 'x' then rest else c1 :: c2 :: rest
  | l => l

def startsWithOx : List Char → Bool
  | c1 :: c2 :: _ => c1 == '0' && c2 == 'x'
  | _ => false

def addrBytes (l : List Char) : List Nat := l.map Char.toNat

/-- Model of `ethcsv.MapShard`: non-positive shard counts map to 0,
otherwise SHA-256 of the normalized address reduced modulo the count. -/
def MapShard (addr : String) (shards : Int) : Int :=
  if shards ≤ 0 then 0
  else Int.ofNat (beUint64 (sha256Bytes (addrBytes (trimOx (lowerData addr)))) % shards.toNat)

theorem trimOx_of_not_startsWith (l : List Char) (h : startsWithOx l = false) :
    trimOx l = l := by
  match l with
  | [] => rfl
  | [c] => rfl
  | c1 :: c2 :: rest =>
    have h' : ¬ (c1 = '0' ∧ c2 = 'x') := by
      intro hc
      rw [hc.1, hc.2] at h
      simp [startsWithOx] at h
    simp [trimOx, h']

set_option maxRecDepth 1000000 in
/-- C10 counterexample: the claim asserts `MapShard` is unchanged by
prepending `"0x"` to *every* address.  For an address that already carries
the prefix this fails: `MapShard "0xab" 2` hashes `"ab"` (the prefix is
stripped) while `MapShard "0x0xab" 2` hashes `"0xab"`, and the two shards
differ. -/
theorem mapShard_prepend_claim_false :
    MapShard "0xab" 2 ≠ MapShard ("0x" ++ "0xab") 2 := by
  decide

/-- C10 (amended): for ASCII addresses, `MapShard` is unchanged by any
change of letter case — two addresses with the same lowercasing map alike
for every shard count, unconditionally, `"0x"`-prefixed or not — and
prepending `"0x"` leaves the shard unchanged provided the lowercased
address does not already start with `"0x"`. -/
theorem mapShard_normalization (a b : String) (n : Int)
    (_ha : ∀ c ∈ a.data, c.toNat ≤ 127) (_hb : ∀ c ∈ b.data, c.toNat ≤ 127)
    (hcase : lowerData a = lowerData b) :
    MapShard a n = MapShard b n
    ∧ (startsWithOx (lowerData a) = false → MapShard ("0x" ++ a) n = MapShard a n) := by
  constructor
  · simp only [MapShard, hcase]
  · intro hnox
    have hdata : ("0x" ++ a).data = '0' :: 'x' :: a.data := by
      rw [String.data_append]
      rfl
    have h0 : asciiLowerChar '0' = '0' := by decide
    have hx : asciiLowerChar 'x' = 'x' := by decide
    have hlow : lowerData ("0x" ++ a) = '0' :: 'x' :: lowerData a := by
      simp [lowerData, hdata, h0, hx]
    have htrim : trimOx ('0' :: 'x' :: lowerData a) = lowerData a := by
      simp [trimOx]
    have htrim2 : trimOx (lowerData a) = lowerData a :=
      trimOx_of_not_startsWith _ hnox
    simp only [MapShard, hlow, htrim, htrim2]

/-- Witness for `mapShard_normalization`: the `"0x"`-prefixed pair
`"0xAB"`/`"0xab"` lands in the same shard of 5 (case invariance needs no
prefix condition), and `"0x" ++ "AB"` equals `"AB"` (no pre-existing
prefix). -/
theorem mapShard_normalization_witness :
    MapShard "0xAB" 5 = MapShard "0xab" 5
    ∧ MapShard ("0x" ++ "AB") 5 = MapShard "AB" 5 :=
  ⟨(mapShard_normalization "0xAB" "0xab" 5 (by decide) (by decide) (by decide)).1,
   (mapShard_normalization "AB" "ab" 5 (by decide) (by decide) (by decide)).2 (by decide)⟩
